import Mathlib

/-!
# Verification of the IRBA claim-flagging pipeline (`src/irba.py`)

Shallow embedding of the core pipeline of `irba.py`:
preprocessing (length of stay, age, specialty normalization), the
join engine building the `master` table, the five rule flags, and the
per-hospital / per-doctor / per-agent flag rollups.

Modelling conventions:
* a pandas numeric cell that may be NaN/NaT is an `Option Int` / `Option Nat`;
  `pd.to_datetime(..., errors="coerce")` results are day numbers (`Option Int`,
  `none` for an unparseable date);
* a pandas comparison whose operand is NaN evaluates to `false`
  (`NaN > 3`, `NaN <= 2`, `NaN == 1` are all `False` in pandas);
* `pd.merge(..., how="left")` is `leftMerge`: each left row is paired with
  every matching right row in right-table order, or kept once with
  null-filled right columns when nothing matches; a null join key matches
  nothing (NaN ≠ NaN);
* `groupby` drops rows whose group key is null, and `.count()` counts the
  non-null values of the selected column in each group.  pandas sorts the
  group keys ascending; we keep them in first-occurrence order (`dedup`),
  which affects no per-group count and no group membership;
* Python strings are lists of Unicode code points (`List Nat`), with the
  ASCII case table; `Series.str.strip` / `.str.title` / `.replace` are
  embedded below.
-/

/-- `x > t` on a possibly-missing (NaN) count, as pandas evaluates it:
a missing operand makes the comparison `False`. -/
def cmpGtN (x : Option Nat) (t : Nat) : Bool :=
  match x with
  | some v => decide (t < v)
  | none => false

/-- `x == t` on a possibly-missing count; `NaN == t` is `False` in pandas. -/
def cmpEqN (x : Option Nat) (t : Nat) : Bool :=
  match x with
  | some v => v == t
  | none => false

/-- `x ≤ t` on a possibly-missing integer; `NaN <= t` is `False` in pandas. -/
def cmpLeZ (x : Option Int) (t : Int) : Bool :=
  match x with
  | some v => decide (v ≤ t)
  | none => false

/-- `x > t` on a possibly-missing integer; `NaN > t` is `False` in pandas. -/
def cmpGtZ (x : Option Int) (t : Int) : Bool :=
  match x with
  | some v => decide (t < v)
  | none => false

/-!
## Dates

`pd.to_datetime` turns a date string into a timestamp; subtracting two
timestamps and taking `.dt.days` gives the difference of their civil day
numbers.  `days_from_civil` is the standard civil-calendar day number of a
proleptic Gregorian date (valid for years ≥ 1), so that
`days_from_civil y2 m2 d2 - days_from_civil y1 m1 d1` is the day difference
pandas computes.
-/

/-- Day number of the civil date `y-m-d` (proleptic Gregorian, `y ≥ 1`),
counted from 0000-03-01. -/
def days_from_civil (y m d : Nat) : Nat :=
  let y' := if m ≤ 2 then y - 1 else y
  let era := y' / 400
  let yoe := y' % 400
  let mp := (m + 9) % 12
  let doy := (153 * mp + 2) / 5 + d - 1
  let doe := yoe * 365 + yoe / 4 - yoe / 100 + doy
  era * 146097 + doe

/-- `irba.py` lines 19-20:
`Length_of_Stay = (Discharged - Admission).dt.days + 1`, then rows with a
negative `Length_of_Stay` are overwritten with `None`.  An unparseable date
(`NaT`) propagates to `none`. -/
def Length_of_Stay (admission discharge : Option Int) : Option Int :=
  match admission, discharge with
  | some a, some d =>
      let v := d - a + 1
      if v < 0 then none else some v
  | _, _ => none

/-- `irba.py` lines 23-24: `Age = InceptionDate.dt.year - Birth Year`,
then negative ages are overwritten with `None`; a missing operand
propagates to `none`. -/
def Age (inceptionYear birthYear : Option Int) : Option Int :=
  match inceptionYear, birthYear with
  | some y, some b =>
      let a := y - b
      if a < 0 then none else some a
  | _, _ => none

/-!
## Specialty normalization (`irba.py` lines 27-33)

`doctor_info["Specialty"].str.strip().str.title()` followed by a
`.replace` through the synonym table
`{"Paediatrician" ↦ "Paediatrician", "Pediatrician" ↦ "Paediatrician",
"Paediatrics" ↦ "Paediatrician"}`.
Strings are lists of code points; the case table is ASCII.
-/

/-- Code points of a string literal (to write examples readably). -/
def strCodes (s : String) : List Nat :=
  s.data.map Char.toNat

/-- Whitespace, as stripped by `str.strip` (ASCII fragment). -/
def isSpc (c : Nat) : Bool :=
  decide (c = 32 ∨ c = 9 ∨ c = 10 ∨ c = 13 ∨ c = 11 ∨ c = 12)

/-- ASCII letter test (Python `str.isalpha`, ASCII fragment). -/
def isAlphaN (c : Nat) : Bool :=
  decide ((65 ≤ c ∧ c ≤ 90) ∨ (97 ≤ c ∧ c ≤ 122))

/-- ASCII uppercase map. -/
def toUpperN (c : Nat) : Nat :=
  if 97 ≤ c ∧ c ≤ 122 then c - 32 else c

/-- ASCII lowercase map. -/
def toLowerN (c : Nat) : Nat :=
  if 65 ≤ c ∧ c ≤ 90 then c + 32 else c

/-- `str.title`, one pass: `b` records whether the previous character was
a letter; a letter after a non-letter is uppercased, a letter after a
letter is lowercased, non-letters pass through. -/
def titleAux (b : Bool) : List Nat → List Nat
  | [] => []
  | c :: cs =>
      (if isAlphaN c then (if b then toLowerN c else toUpperN c) else c)
        :: titleAux (isAlphaN c) cs

/-- Python `str.title`. -/
def titleStr (s : List Nat) : List Nat :=
  titleAux false s

/-- Python `str.strip` (both ends). -/
def stripStr (s : List Nat) : List Nat :=
  ((s.dropWhile isSpc).reverse.dropWhile isSpc).reverse

/-- The `.replace` synonym table of `irba.py` lines 29-33. -/
def specialtySynonym (v : List Nat) : List Nat :=
  if v = strCodes "Paediatrician" ∨ v = strCodes "Pediatrician" ∨
      v = strCodes "Paediatrics" then strCodes "Paediatrician" else v

/-- Full specialty normalization of `irba.py` lines 27-33:
strip, title-case, then the synonym map. -/
def normalize_Specialty (s : List Nat) : List Nat :=
  specialtySynonym (titleStr (stripStr s))

/-!
## Input tables (post-load, post-date-parse)

`ClaimRow` carries the coerced `to_datetime` results; foreign keys and
dates may be null, the primary `Claim ID` is the key of the table.
-/

structure ClaimRow where
  claimID : Nat
  policyID : Option Nat
  hospitalID : Option Nat
  admission : Option Int
  discharge : Option Int
deriving DecidableEq, Repr

structure DiagRow where
  claimID : Option Nat
  diagnosis : Option Nat
deriving DecidableEq, Repr

structure DocAsgRow where
  claimID : Option Nat
  doctorID : Option Nat
deriving DecidableEq, Repr

structure PolicyRow where
  policyID : Nat
  inceptionYear : Option Int
  birthYear : Option Int
  agent : Option Nat
deriving DecidableEq, Repr

structure HospitalRow where
  hospitalID : Nat
  location : Nat
deriving DecidableEq, Repr

/-- A claim row after preprocessing (`Length_of_Stay` computed). -/
structure ClaimPre where
  claimID : Nat
  policyID : Option Nat
  hospitalID : Option Nat
  los : Option Int
deriving DecidableEq, Repr

/-- Preprocessing of `claim_basic` (`irba.py` lines 17-20). -/
def claim_pre (cb : List ClaimRow) : List ClaimPre :=
  cb.map (fun c =>
    ⟨c.claimID, c.policyID, c.hospitalID, Length_of_Stay c.admission c.discharge⟩)

/-- A policy row after preprocessing (`Age` computed). -/
structure PolicyPre where
  policyID : Nat
  age : Option Int
  agent : Option Nat
deriving DecidableEq, Repr

/-- Preprocessing of `policy_info` (`irba.py` lines 22-24). -/
def policy_pre (pl : List PolicyRow) : List PolicyPre :=
  pl.map (fun p => ⟨p.policyID, Age p.inceptionYear p.birthYear, p.agent⟩)

/-!
## Group-by counts (`irba.py` lines 36-37)

`claim_diagnosis.groupby("Claim ID")["Diagnosis"].count()`: rows with a
null `Claim ID` are dropped by `groupby`; within each group, `.count()`
counts the non-null `Diagnosis` values.  Keys are kept in first-occurrence
order (pandas sorts them; only presentation order differs).
-/

def diagnosis_count (cd : List DiagRow) : List (Nat × Nat) :=
  ((cd.filterMap (·.claimID)).dedup).map (fun k =>
    (k, cd.countP (fun dr => dr.claimID == some k && dr.diagnosis.isSome)))

def doctor_count (cdo : List DocAsgRow) : List (Nat × Nat) :=
  ((cdo.filterMap (·.claimID)).dedup).map (fun k =>
    (k, cdo.countP (fun a => a.claimID == some k && a.doctorID.isSome)))

/-!
## The left merge (`pd.merge(..., how="left")`)

Each left row is paired with every matching right row (in right-table
order); a left row with no match is kept once, with the right-hand
columns null-filled by `miss`.
-/

def leftMerge (m : α → β → Bool) (comb : α → β → γ) (miss : α → γ)
    (R : List β) : List α → List γ
  | [] => []
  | a :: L =>
      (if (R.filter (m a)).isEmpty then [miss a]
        else (R.filter (m a)).map (comb a)) ++ leftMerge m comb miss R L

/-!
## The master table (`irba.py` lines 39-43)

`master = claim_basic.copy()`, then four successive left merges:
diagnosis counts, doctor counts, policy attributes, hospital attributes.
-/

structure M1 where
  claimID : Nat
  policyID : Option Nat
  hospitalID : Option Nat
  los : Option Int
  numDiagnoses : Option Nat
deriving DecidableEq, Repr

structure M2 where
  claimID : Nat
  policyID : Option Nat
  hospitalID : Option Nat
  los : Option Int
  numDiagnoses : Option Nat
  numDoctors : Option Nat
deriving DecidableEq, Repr

structure M3 where
  claimID : Nat
  policyID : Option Nat
  hospitalID : Option Nat
  los : Option Int
  numDiagnoses : Option Nat
  numDoctors : Option Nat
  age : Option Int
  agent : Option Nat
deriving DecidableEq, Repr

structure MasterRow where
  claimID : Nat
  policyID : Option Nat
  hospitalID : Option Nat
  los : Option Int
  numDiagnoses : Option Nat
  numDoctors : Option Nat
  age : Option Int
  agent : Option Nat
  location : Option Nat
deriving DecidableEq, Repr

/-- `pd.merge(master, diagnosis_count, on="Claim ID", how="left")`. -/
def master_d (cb : List ClaimRow) (cd : List DiagRow) : List M1 :=
  leftMerge (fun c e => c.claimID == e.1)
    (fun c e => ⟨c.claimID, c.policyID, c.hospitalID, c.los, some e.2⟩)
    (fun c => ⟨c.claimID, c.policyID, c.hospitalID, c.los, none⟩)
    (diagnosis_count cd) (claim_pre cb)

/-- `pd.merge(master, doctor_count, on="Claim ID", how="left")`. -/
def master_dd (cb : List ClaimRow) (cd : List DiagRow) (cdo : List DocAsgRow) :
    List M2 :=
  leftMerge (fun (x : M1) e => x.claimID == e.1)
    (fun x e => ⟨x.claimID, x.policyID, x.hospitalID, x.los, x.numDiagnoses, some e.2⟩)
    (fun x => ⟨x.claimID, x.policyID, x.hospitalID, x.los, x.numDiagnoses, none⟩)
    (doctor_count cdo) (master_d cb cd)

/-- `pd.merge(master, policy_info, on="Policy ID", how="left")`.
A null `Policy ID` matches nothing (NaN joins nothing in pandas). -/
def master_p (cb : List ClaimRow) (cd : List DiagRow) (cdo : List DocAsgRow)
    (pl : List PolicyRow) : List M3 :=
  leftMerge (fun (x : M2) (p : PolicyPre) => x.policyID == some p.policyID)
    (fun x p => ⟨x.claimID, x.policyID, x.hospitalID, x.los, x.numDiagnoses,
      x.numDoctors, p.age, p.agent⟩)
    (fun x => ⟨x.claimID, x.policyID, x.hospitalID, x.los, x.numDiagnoses,
      x.numDoctors, none, none⟩)
    (policy_pre pl) (master_dd cb cd cdo)

/-- `pd.merge(master, hospital_info, on="Hospital ID", how="left")` — the
completed `master` table of `irba.py` line 43. -/
def master (cb : List ClaimRow) (cd : List DiagRow) (cdo : List DocAsgRow)
    (pl : List PolicyRow) (hi : List HospitalRow) : List MasterRow :=
  leftMerge (fun (x : M3) (h : HospitalRow) => x.hospitalID == some h.hospitalID)
    (fun x h => ⟨x.claimID, x.policyID, x.hospitalID, x.los, x.numDiagnoses,
      x.numDoctors, x.age, x.agent, some h.location⟩)
    (fun x => ⟨x.claimID, x.policyID, x.hospitalID, x.los, x.numDiagnoses,
      x.numDoctors, x.age, x.agent, none⟩)
    hi (master_p cb cd cdo pl)

/-!
## Rule flags (`irba.py` lines 46-50)

The columns `Num_Diagnoses`, `Length_of_Stay`, `Num_Doctors` always exist
in `master` (they are created by the preprocessing and the merges), so
`master.get(col, 0)` returns the column itself and the scalar default `0`
is never used; the element-wise comparisons then treat NaN as `False`.
-/

def flag_many_diagnoses (r : MasterRow) : Bool :=
  cmpGtN r.numDiagnoses 3

def flag_shortstay_manydiag (r : MasterRow) : Bool :=
  cmpLeZ r.los 2 && cmpGtN r.numDiagnoses 2

def flag_longstay_onediag (r : MasterRow) : Bool :=
  cmpGtZ r.los 7 && cmpEqN r.numDiagnoses 1

def flag_manydoctors (r : MasterRow) : Bool :=
  cmpGtN r.numDoctors 2

def flag_age_missing (r : MasterRow) : Bool :=
  r.age.isNone

/-- The five fixed rules (`rule_flags`, `irba.py` line 53). -/
inductive Rule
  | many_diagnoses
  | shortstay_manydiag
  | longstay_onediag
  | manydoctors
  | age_missing
deriving DecidableEq, Repr

def flagOf : Rule → MasterRow → Bool
  | .many_diagnoses => flag_many_diagnoses
  | .shortstay_manydiag => flag_shortstay_manydiag
  | .longstay_onediag => flag_longstay_onediag
  | .manydoctors => flag_manydoctors
  | .age_missing => flag_age_missing

/-- `claims_per_rule` (`irba.py` line 54): the `Claim ID`s of the rows
where the rule's flag is `True`, in master-row order. -/
def claims_per_rule (r : Rule) (ms : List MasterRow) : List Nat :=
  (ms.filter (flagOf r)).map (·.claimID)

/-!
## Rollups (`irba.py` lines 195-196, 210-213, 227-228)

`master.groupby("Hospital ID")[rule_flags].sum()`: grouping drops rows
with a null key; summing a boolean column counts its `True`s (NaN counts
0).  Group keys are kept in first-occurrence order (pandas sorts them;
only presentation order differs, not any count).
-/

/-- The group keys of `master.groupby("Hospital ID")`. -/
def hospital_keys (ms : List MasterRow) : List Nat :=
  (ms.filterMap (·.hospitalID)).dedup

/-- Entry of `hospital_flags` for hospital `h` and one rule column:
the number of master rows of that hospital whose flag is `True`. -/
def hospital_flags (ms : List MasterRow) (h : Nat) (r : Rule) : Nat :=
  ms.countP (fun x => x.hospitalID == some h && flagOf r x)

/-- The group keys of `master.groupby("Agent")`. -/
def agent_keys (ms : List MasterRow) : List Nat :=
  (ms.filterMap (·.agent)).dedup

/-- Entry of `agent_flags` for agent `g` and one rule column. -/
def agent_flags (ms : List MasterRow) (g : Nat) (r : Rule) : Nat :=
  ms.countP (fun x => x.agent == some g && flagOf r x)

/-- `doctor_flags` (`irba.py` line 210): `claim_doctor` left-merged with
the flag columns of `master` on `Claim ID`; an assignment whose claim is
absent from `master` keeps null (NaN) flags. -/
def doctor_flags (cdo : List DocAsgRow) (ms : List MasterRow) :
    List (DocAsgRow × Option MasterRow) :=
  leftMerge (fun (a : DocAsgRow) (x : MasterRow) => a.claimID == some x.claimID)
    (fun a x => (a, some x)) (fun a => (a, none)) ms cdo

/-- Entry of `doctor_flags_sum` (`irba.py` line 211) for doctor `d` and one
rule column: grouping drops null `Doctor ID`s; summing the merged boolean
column counts its `True`s (NaN counts 0). -/
def doctor_flags_sum (cdo : List DocAsgRow) (ms : List MasterRow)
    (d : Nat) (r : Rule) : Nat :=
  (doctor_flags cdo ms).countP (fun x =>
    x.1.doctorID == some d &&
      (match x.2 with
        | some mrow => flagOf r mrow
        | none => false))

/-!
## Lemmas about `leftMerge`
-/

theorem leftMerge_nil (m : α → β → Bool) (comb : α → β → γ) (miss : α → γ)
    (R : List β) : leftMerge m comb miss R [] = [] := rfl

theorem leftMerge_cons (m : α → β → Bool) (comb : α → β → γ) (miss : α → γ)
    (R : List β) (a : α) (L : List α) :
    leftMerge m comb miss R (a :: L) =
      (if (R.filter (m a)).isEmpty then [miss a]
        else (R.filter (m a)).map (comb a)) ++ leftMerge m comb miss R L := rfl

/-- If at most one right row matches each left row, a left merge preserves
the row count. -/
theorem length_leftMerge (m : α → β → Bool) (comb : α → β → γ) (miss : α → γ)
    (R : List β) (L : List α)
    (h : ∀ a ∈ L, (R.filter (m a)).length ≤ 1) :
    (leftMerge m comb miss R L).length = L.length := by
  induction L with
  | nil => rfl
  | cons a L ih =>
    have ha := h a (List.mem_cons_self a L)
    rw [leftMerge_cons, List.length_append,
      ih (fun x hx => h x (List.mem_cons_of_mem _ hx))]
    by_cases he : (R.filter (m a)).isEmpty
    · rw [if_pos he]
      simp only [List.length_cons, List.length_nil]
      omega
    · have h1 : (R.filter (m a)).length = 1 := by
        cases hfe : R.filter (m a) with
        | nil => rw [hfe] at he; simp at he
        | cons b t =>
          rw [hfe] at ha
          simp only [List.length_cons] at ha ⊢
          omega
      rw [if_neg he, List.length_map, h1]
      simp only [List.length_cons]
      omega

/-- If every row satisfying `p` has key `k₀` and the keys of `R` are
pairwise distinct, at most one row of `R` satisfies `p`. -/
theorem length_filter_le_one {β κ : Type} [DecidableEq κ] (R : List β)
    (key : β → κ) (hnd : (R.map key).Nodup) (p : β → Bool) (k₀ : κ)
    (hp : ∀ b, p b = true → key b = k₀) :
    (R.filter p).length ≤ 1 := by
  induction R with
  | nil => simp
  | cons b R ih =>
    simp only [List.map_cons, List.nodup_cons] at hnd
    by_cases hb : p b
    · have hrest : R.filter p = [] := by
        rw [List.filter_eq_nil_iff]
        intro x hx hpx
        exact hnd.1 (by rw [hp b hb, ← hp x hpx]; exact List.mem_map_of_mem key hx)
      simp [List.filter_cons, hb, hrest]
    · simp only [List.filter_cons, hb, if_false]
      exact ih hnd.2

/-- Every left row reaches the output of a left merge: either null-filled
(no match) or combined with some matching right row. -/
theorem exists_mem_leftMerge (m : α → β → Bool) (comb : α → β → γ)
    (miss : α → γ) (R : List β) {L : List α} {a : α} (ha : a ∈ L) :
    ∃ g ∈ leftMerge m comb miss R L,
      ((R.filter (m a) = [] ∧ g = miss a) ∨
        ∃ b ∈ R, m a b = true ∧ g = comb a b) := by
  induction L with
  | nil => cases ha
  | cons x L ih =>
    rcases List.mem_cons.mp ha with rfl | ha'
    · cases hfe : R.filter (m a) with
      | nil =>
        refine ⟨miss a, ?_, Or.inl ⟨rfl, rfl⟩⟩
        rw [leftMerge_cons, hfe]
        simp
      | cons b t =>
        have hb : b ∈ R.filter (m a) := by rw [hfe]; exact List.mem_cons_self b t
        refine ⟨comb a b, ?_, Or.inr ⟨b, (List.mem_filter.mp hb).1,
          (List.mem_filter.mp hb).2, rfl⟩⟩
        rw [leftMerge_cons, hfe]
        simp
    · obtain ⟨g, hg, hp⟩ := ih ha'
      exact ⟨g, by rw [leftMerge_cons]; exact List.mem_append_right _ hg, hp⟩

/-- Every output row of a left merge comes from some left row: either
null-filled (no match) or combined with some matching right row. -/
theorem of_mem_leftMerge (m : α → β → Bool) (comb : α → β → γ)
    (miss : α → γ) (R : List β) {L : List α} {g : γ}
    (hg : g ∈ leftMerge m comb miss R L) :
    ∃ a ∈ L, (g = miss a ∨ ∃ b ∈ R, m a b = true ∧ g = comb a b) := by
  induction L with
  | nil => cases hg
  | cons x L ih =>
    rw [leftMerge_cons] at hg
    rcases List.mem_append.mp hg with hl | hr
    · by_cases he : (R.filter (m x)).isEmpty
      · rw [if_pos he] at hl
        simp only [List.mem_singleton] at hl
        exact ⟨x, List.mem_cons_self x L, Or.inl hl⟩
      · rw [if_neg he] at hl
        obtain ⟨b, hb, rfl⟩ := List.mem_map.mp hl
        exact ⟨x, List.mem_cons_self x L,
          Or.inr ⟨b, (List.mem_filter.mp hb).1, (List.mem_filter.mp hb).2, rfl⟩⟩
    · obtain ⟨a, ha, hp⟩ := ih hr
      exact ⟨a, List.mem_cons_of_mem _ ha, hp⟩

/-!
## Key uniqueness of the aggregated and dimension tables
-/

/-- The key column of `diagnosis_count` has no duplicates (it is the
deduplicated list of claim keys). -/
theorem nodup_keys_diagnosis_count (cd : List DiagRow) :
    ((diagnosis_count cd).map Prod.fst).Nodup := by
  unfold diagnosis_count
  have hc : (Prod.fst ∘ fun k : Nat =>
      (k, List.countP (fun dr => dr.claimID == some k && dr.diagnosis.isSome) cd)) = id := by
    funext k
    rfl
  rw [List.map_map, hc, List.map_id]
  exact List.nodup_dedup (cd.filterMap (·.claimID))

/-- The key column of `doctor_count` has no duplicates. -/
theorem nodup_keys_doctor_count (cdo : List DocAsgRow) :
    ((doctor_count cdo).map Prod.fst).Nodup := by
  unfold doctor_count
  have hc : (Prod.fst ∘ fun k : Nat =>
      (k, List.countP (fun a => a.claimID == some k && a.doctorID.isSome) cdo)) = id := by
    funext k
    rfl
  rw [List.map_map, hc, List.map_id]
  exact List.nodup_dedup (cdo.filterMap (·.claimID))

/-- At most one row of `R` matches a fixed key under a duplicate-free
key column (`Nat`-valued join key on both sides). -/
theorem filter_natkey_le_one {β : Type} (R : List β) (key : β → Nat)
    (hnd : (R.map key).Nodup) (v : Nat) :
    (R.filter (fun b => v == key b)).length ≤ 1 := by
  apply length_filter_le_one R key hnd _ v
  intro b hb
  simp only [beq_iff_eq] at hb
  exact hb.symm

/-- At most one row of `R` matches a possibly-null foreign key under a
duplicate-free key column; a null key matches nothing. -/
theorem filter_optkey_le_one {β : Type} (R : List β) (key : β → Nat)
    (hnd : (R.map key).Nodup) (x : Option Nat) :
    (R.filter (fun b => x == some (key b))).length ≤ 1 := by
  cases x with
  | none =>
    have hnil : R.filter (fun b => (none : Option Nat) == some (key b)) = [] := by
      rw [List.filter_eq_nil_iff]
      intro b _
      simp
    simp [hnil]
  | some v =>
    apply length_filter_le_one R key hnd _ v
    intro b hb
    simp only [beq_iff_eq, Option.some.injEq] at hb
    exact hb.symm

/-- The key column of the preprocessed policy table is that of the raw
policy table. -/
theorem nodup_keys_policy_pre (pl : List PolicyRow)
    (hnd : (pl.map (·.policyID)).Nodup) :
    ((policy_pre pl).map (·.policyID)).Nodup := by
  unfold policy_pre
  rw [List.map_map]
  exact hnd

/-- C3: with uniquely keyed Policy and Hospital tables, the master table
has exactly one row per input claim row — no claim is dropped or
duplicated by the four left merges. -/
theorem C3_master_cardinality (cb : List ClaimRow) (cd : List DiagRow)
    (cdo : List DocAsgRow) (pl : List PolicyRow) (hi : List HospitalRow)
    (hpol : (pl.map (·.policyID)).Nodup)
    (hhosp : (hi.map (·.hospitalID)).Nodup) :
    (master cb cd cdo pl hi).length = cb.length := by
  have h1 : (master_d cb cd).length = (claim_pre cb).length := by
    apply length_leftMerge
    intro a _
    exact filter_natkey_le_one _ Prod.fst (nodup_keys_diagnosis_count cd) a.claimID
  have h2 : (master_dd cb cd cdo).length = (master_d cb cd).length := by
    apply length_leftMerge
    intro a _
    exact filter_natkey_le_one _ Prod.fst (nodup_keys_doctor_count cdo) a.claimID
  have h3 : (master_p cb cd cdo pl).length = (master_dd cb cd cdo).length := by
    apply length_leftMerge
    intro a _
    exact filter_optkey_le_one (policy_pre pl) (fun p => p.policyID)
      (nodup_keys_policy_pre pl hpol) a.policyID
  have h4 : (master cb cd cdo pl hi).length = (master_p cb cd cdo pl).length := by
    apply length_leftMerge
    intro a _
    exact filter_optkey_le_one hi (fun h => h.hospitalID) hhosp a.hospitalID
  rw [h4, h3, h2, h1]
  unfold claim_pre
  rw [List.length_map]

/-- Witness for C3 at a concrete dataset (one claim with matches, one
claim with none). -/
theorem C3_master_cardinality_witness :
    (master
      [⟨1, some 10, some 20, some 0, some 4⟩, ⟨2, none, none, none, none⟩]
      [⟨some 1, some 100⟩] [⟨some 1, some 7⟩]
      [⟨10, some 2023, some 1990, some 5⟩] [⟨20, 3⟩]).length =
    ([⟨1, some 10, some 20, some 0, some 4⟩, ⟨2, none, none, none, none⟩] :
      List ClaimRow).length :=
  C3_master_cardinality _ _ _ _ _ (by decide) (by decide)

/-- C4: `Length_of_Stay` is `discharge − admission + 1` when both dates
parse and that value is non-negative; it is null when either date is
unparseable or the value is negative; it is never a negative number. -/
theorem C4_Length_of_Stay (a d : Int) :
    (0 ≤ d - a + 1 → Length_of_Stay (some a) (some d) = some (d - a + 1)) ∧
    (d - a + 1 < 0 → Length_of_Stay (some a) (some d) = none) ∧
    (∀ x : Option Int, Length_of_Stay none x = none) ∧
    (∀ x : Option Int, Length_of_Stay x none = none) ∧
    (∀ x y : Option Int, ∀ v : Int, Length_of_Stay x y = some v → 0 ≤ v) := by
  refine ⟨?_, ?_, ?_, ?_, ?_⟩
  · intro h
    show (if d - a + 1 < 0 then none else some (d - a + 1)) = some (d - a + 1)
    rw [if_neg (by omega)]
  · intro h
    show (if d - a + 1 < 0 then none else some (d - a + 1)) = none
    rw [if_pos h]
  · intro x
    cases x <;> rfl
  · intro x
    cases x <;> rfl
  · intro x y v h
    cases x with
    | none => cases y <;> simp [Length_of_Stay] at h
    | some a' =>
      cases y with
      | none => simp [Length_of_Stay] at h
      | some d' =>
        have h' : (if d' - a' + 1 < 0 then (none : Option Int)
            else some (d' - a' + 1)) = some v := h
        by_cases hneg : d' - a' + 1 < 0
        · rw [if_pos hneg] at h'
          cases h'
        · rw [if_neg hneg] at h'
          cases h'
          omega

/-- Witness for C4: admission 2023-01-01, discharge 2023-01-10 gives a
length of stay of 10 days. -/
theorem C4_Length_of_Stay_witness :
    Length_of_Stay (some ((days_from_civil 2023 1 1 : Nat) : Int))
      (some ((days_from_civil 2023 1 10 : Nat) : Int)) = some 10 :=
  ((C4_Length_of_Stay _ _).1 (by decide)).trans (by decide)

/-- C9: a flag comparison with a missing (NaN) operand evaluates to
`false`: null `Length_of_Stay` forces both stay-based flags to `false`
whatever `Num_Diagnoses` is; null `Num_Diagnoses` forces the three
diagnosis-based flags to `false`; null `Num_Doctors` forces
`flag_manydoctors` to `false`. -/
theorem C9_null_operand_flags (r : MasterRow) :
    (r.los = none →
      flag_shortstay_manydiag r = false ∧ flag_longstay_onediag r = false) ∧
    (r.numDiagnoses = none →
      flag_many_diagnoses r = false ∧ flag_shortstay_manydiag r = false ∧
        flag_longstay_onediag r = false) ∧
    (r.numDoctors = none → flag_manydoctors r = false) := by
  refine ⟨?_, ?_, ?_⟩ <;> intro h <;>
    simp [flag_shortstay_manydiag, flag_longstay_onediag, flag_many_diagnoses,
      flag_manydoctors, cmpLeZ, cmpGtZ, cmpGtN, cmpEqN, h]

/-- Witness for C9 at a concrete all-null master row. -/
theorem C9_null_operand_flags_witness :
    flag_shortstay_manydiag ⟨1, none, none, none, none, none, none, none, none⟩ = false ∧
    flag_manydoctors ⟨1, none, none, none, none, none, none, none, none⟩ = false :=
  ⟨((C9_null_operand_flags _).1 rfl).1, (C9_null_operand_flags _).2.2 rfl⟩

/-- C1 as stated is false on the code: a claim with an unparseable
admission date (null `Length_of_Stay`) and 3 diagnosis rows gets
`flag_shortstay_manydiag = false`, not `true` — a missing operand is not
replaced by 0 (the `.get(col, 0)` default never fires because the column
always exists); the NaN comparison is `False`. -/
theorem C1_counterexample :
    (master [⟨1, some 1, some 1, none, some 0⟩]
        [⟨some 1, some 10⟩, ⟨some 1, some 11⟩, ⟨some 1, some 12⟩] [] [] []).map
      (fun r => (r.los, r.numDiagnoses, flag_shortstay_manydiag r)) =
      [(none, some 3, false)] := by
  decide

/-- C1 (amended): the five predicates always produce a boolean (the flag
functions are `Bool`-valued, never null), but a missing numeric operand
makes its comparison `false` rather than being replaced by 0; in
particular every master row with null `Length_of_Stay` has
`flag_shortstay_manydiag = false` even when `Num_Diagnoses > 2`. -/
theorem C1_missing_operand_comparison (cb : List ClaimRow) (cd : List DiagRow)
    (cdo : List DocAsgRow) (pl : List PolicyRow) (hi : List HospitalRow) :
    ∀ row ∈ master cb cd cdo pl hi, row.los = none →
      flag_shortstay_manydiag row = false := by
  intro row _ h
  simp [flag_shortstay_manydiag, cmpLeZ, h]

/-- Witness for C1 (amended) at the row produced by the counterexample
dataset. -/
theorem C1_missing_operand_comparison_witness :
    flag_shortstay_manydiag ⟨1, some 1, some 1, none, some 3, none, none, none, none⟩ =
      false :=
  C1_missing_operand_comparison [⟨1, some 1, some 1, none, some 0⟩]
    [⟨some 1, some 10⟩, ⟨some 1, some 11⟩, ⟨some 1, some 12⟩] [] [] []
    ⟨1, some 1, some 1, none, some 3, none, none, none, none⟩ (by decide) rfl

/-!
## Transport of fields through the merge chain
-/

/-- Each master row descends from a `master_p` row with the same claim
key, counts, stay length, age and agent (the hospital merge only adds the
location). -/
theorem master_row_from_master_p (cb : List ClaimRow) (cd : List DiagRow)
    (cdo : List DocAsgRow) (pl : List PolicyRow) (hi : List HospitalRow)
    {row : MasterRow} (hrow : row ∈ master cb cd cdo pl hi) :
    ∃ x ∈ master_p cb cd cdo pl, row.claimID = x.claimID ∧
      row.numDiagnoses = x.numDiagnoses ∧ row.numDoctors = x.numDoctors ∧
      row.los = x.los ∧ row.age = x.age ∧ row.agent = x.agent := by
  obtain ⟨x, hx, hcase⟩ := of_mem_leftMerge _ _ _ _ hrow
  rcases hcase with rfl | ⟨b, _, _, rfl⟩ <;>
    exact ⟨x, hx, rfl, rfl, rfl, rfl, rfl, rfl⟩

/-- Each `master_p` row descends from a `master_dd` row with the same
claim key, counts and stay length (the policy merge only adds age and
agent). -/
theorem master_p_row_from_master_dd (cb : List ClaimRow) (cd : List DiagRow)
    (cdo : List DocAsgRow) (pl : List PolicyRow)
    {x : M3} (hx : x ∈ master_p cb cd cdo pl) :
    ∃ y ∈ master_dd cb cd cdo, x.claimID = y.claimID ∧
      x.numDiagnoses = y.numDiagnoses ∧ x.numDoctors = y.numDoctors ∧
      x.los = y.los := by
  obtain ⟨y, hy, hcase⟩ := of_mem_leftMerge _ _ _ _ hx
  rcases hcase with rfl | ⟨b, _, _, rfl⟩ <;>
    exact ⟨y, hy, rfl, rfl, rfl, rfl⟩

/-- Each `master_dd` row descends from a `master_d` row with the same
claim key, diagnosis count and stay length (the doctor-count merge only
adds `Num_Doctors`). -/
theorem master_dd_row_from_master_d (cb : List ClaimRow) (cd : List DiagRow)
    (cdo : List DocAsgRow) {y : M2} (hy : y ∈ master_dd cb cd cdo) :
    ∃ z ∈ master_d cb cd, y.claimID = z.claimID ∧
      y.numDiagnoses = z.numDiagnoses ∧ y.los = z.los := by
  obtain ⟨z, hz, hcase⟩ := of_mem_leftMerge _ _ _ _ hy
  rcases hcase with rfl | ⟨b, _, _, rfl⟩ <;>
    exact ⟨z, hz, rfl, rfl, rfl⟩

/-- A `master_d` row whose claim has no row in the diagnosis table keeps
a null `Num_Diagnoses`: the merge null-fills it, nothing fills 0. -/
theorem numDiagnoses_none_of_absent (cb : List ClaimRow) (cd : List DiagRow)
    {z : M1} (hz : z ∈ master_d cb cd)
    (habs : ∀ dr ∈ cd, dr.claimID ≠ some z.claimID) :
    z.numDiagnoses = none := by
  obtain ⟨c, _, hcase⟩ := of_mem_leftMerge _ _ _ _ hz
  rcases hcase with rfl | ⟨e, he, hm, rfl⟩
  · rfl
  · exfalso
    unfold diagnosis_count at he
    obtain ⟨k, hk, rfl⟩ := List.mem_map.mp he
    have hk' : k ∈ cd.filterMap (·.claimID) := List.mem_dedup.mp hk
    obtain ⟨dr, hdr, hdrk⟩ := List.mem_filterMap.mp hk'
    have hck : c.claimID = k := by simpa using hm
    exact habs dr hdr (by rw [hdrk]; exact congrArg some (by rw [hck]))

/-- A `master_dd` row whose claim has no row in the doctor-assignment
table keeps a null `Num_Doctors`. -/
theorem numDoctors_none_of_absent (cb : List ClaimRow) (cd : List DiagRow)
    (cdo : List DocAsgRow) {y : M2} (hy : y ∈ master_dd cb cd cdo)
    (habs : ∀ a ∈ cdo, a.claimID ≠ some y.claimID) :
    y.numDoctors = none := by
  obtain ⟨z, _, hcase⟩ := of_mem_leftMerge _ _ _ _ hy
  rcases hcase with rfl | ⟨e, he, hm, rfl⟩
  · rfl
  · exfalso
    unfold doctor_count at he
    obtain ⟨k, hk, rfl⟩ := List.mem_map.mp he
    have hk' : k ∈ cdo.filterMap (·.claimID) := List.mem_dedup.mp hk
    obtain ⟨a, ha, hak⟩ := List.mem_filterMap.mp hk'
    have hzk : z.claimID = k := by simpa using hm
    exact habs a ha (by rw [hak]; exact congrArg some (by rw [hzk]))

/-- C2 as stated is false on the code: a claim absent from both child
tables carries null (NaN) counts in its master row, not 0 — there is no
`fillna(0)` after the left merges. -/
theorem C2_counterexample :
    (master [⟨1, none, none, some 0, some 0⟩] [] [] [] []).map
      (fun r => (r.numDiagnoses, r.numDoctors)) = [(none, none)] := by
  decide

/-- C2 (amended): for every claim with no row in the diagnosis
(respectively doctor-assignment) table, every master row of that claim
has `Num_Diagnoses = none` (respectively `Num_Doctors = none`) — null,
not 0; the count is a non-negative integer only when the claim appears in
the child table. -/
theorem C2_counts_null_for_absent (cb : List ClaimRow) (cd : List DiagRow)
    (cdo : List DocAsgRow) (pl : List PolicyRow) (hi : List HospitalRow) :
    ∀ row ∈ master cb cd cdo pl hi,
      ((∀ dr ∈ cd, dr.claimID ≠ some row.claimID) → row.numDiagnoses = none) ∧
      ((∀ a ∈ cdo, a.claimID ≠ some row.claimID) → row.numDoctors = none) := by
  intro row hrow
  obtain ⟨x, hx, hck1, hnd1, hndoc1, -, -, -⟩ :=
    master_row_from_master_p cb cd cdo pl hi hrow
  obtain ⟨y, hy, hck2, hnd2, hndoc2, -⟩ :=
    master_p_row_from_master_dd cb cd cdo pl hx
  constructor
  · intro habs
    obtain ⟨z, hz, hck3, hnd3, -⟩ := master_dd_row_from_master_d cb cd cdo hy
    rw [hnd1, hnd2, hnd3]
    apply numDiagnoses_none_of_absent cb cd hz
    intro dr hdr
    rw [← hck3, ← hck2, ← hck1]
    exact habs dr hdr
  · intro habs
    rw [hndoc1, hndoc2]
    apply numDoctors_none_of_absent cb cd cdo hy
    intro a ha
    rw [← hck2, ← hck1]
    exact habs a ha

/-- Witness for C2 (amended) at a concrete dataset whose single claim is
absent from both child tables. -/
theorem C2_counts_null_for_absent_witness :
    (⟨1, none, none, some 1, none, none, none, none, none⟩ : MasterRow).numDiagnoses =
      none :=
  (C2_counts_null_for_absent [⟨1, none, none, some 0, some 0⟩] [] [] [] []
    ⟨1, none, none, some 1, none, none, none, none, none⟩ (by decide)).1
    (by intro dr hdr; cases hdr)

/-- Every input claim row reaches `master_dd` in at least one row keeping
its claim key, policy key, hospital key and stay length. -/
theorem exists_master_dd_of_claim (cb : List ClaimRow) (cd : List DiagRow)
    (cdo : List DocAsgRow) {c : ClaimRow} (hc : c ∈ cb) :
    ∃ y ∈ master_dd cb cd cdo, y.claimID = c.claimID ∧
      y.policyID = c.policyID ∧ y.hospitalID = c.hospitalID := by
  have hcp : (⟨c.claimID, c.policyID, c.hospitalID,
      Length_of_Stay c.admission c.discharge⟩ : ClaimPre) ∈ claim_pre cb :=
    List.mem_map_of_mem _ hc
  obtain ⟨z, hz, hzcase⟩ := exists_mem_leftMerge
    (fun (c : ClaimPre) (e : Nat × Nat) => c.claimID == e.1)
    (fun c e => (⟨c.claimID, c.policyID, c.hospitalID, c.los, some e.2⟩ : M1))
    (fun c => (⟨c.claimID, c.policyID, c.hospitalID, c.los, none⟩ : M1))
    (diagnosis_count cd) hcp
  have hzf : z.claimID = c.claimID ∧ z.policyID = c.policyID ∧
      z.hospitalID = c.hospitalID := by
    rcases hzcase with ⟨-, rfl⟩ | ⟨b, -, -, rfl⟩ <;> exact ⟨rfl, rfl, rfl⟩
  obtain ⟨y, hy, hycase⟩ := exists_mem_leftMerge
    (fun (x : M1) (e : Nat × Nat) => x.claimID == e.1)
    (fun x e => (⟨x.claimID, x.policyID, x.hospitalID, x.los, x.numDiagnoses,
      some e.2⟩ : M2))
    (fun x => (⟨x.claimID, x.policyID, x.hospitalID, x.los, x.numDiagnoses,
      none⟩ : M2))
    (doctor_count cdo) hz
  have hyf : y.claimID = z.claimID ∧ y.policyID = z.policyID ∧
      y.hospitalID = z.hospitalID := by
    rcases hycase with ⟨-, rfl⟩ | ⟨b, -, -, rfl⟩ <;> exact ⟨rfl, rfl, rfl⟩
  exact ⟨y, hy, hyf.1.trans hzf.1, hyf.2.1.trans hzf.2.1, hyf.2.2.trans hzf.2.2⟩

/-- C6: a claim whose `Policy ID` matches no policy row is still present
in `master` (the join is a left join, never inner); its joined policy
attributes (`Age`, `Agent`) are null and its `flag_age_missing` is
`true`.  The embedding is total, so no error can arise from the missing
join target. -/
theorem C6_missing_policy_left_join (cb : List ClaimRow) (cd : List DiagRow)
    (cdo : List DocAsgRow) (pl : List PolicyRow) (hi : List HospitalRow)
    (c : ClaimRow) (hc : c ∈ cb)
    (hnomatch : ∀ p ∈ pl, c.policyID ≠ some p.policyID) :
    ∃ row ∈ master cb cd cdo pl hi, row.claimID = c.claimID ∧
      row.age = none ∧ row.agent = none ∧ flag_age_missing row = true := by
  obtain ⟨y, hy, hyck, hypol, -⟩ := exists_master_dd_of_claim cb cd cdo hc
  obtain ⟨x, hx, hxcase⟩ := exists_mem_leftMerge
    (fun (x : M2) (p : PolicyPre) => x.policyID == some p.policyID)
    (fun x p => (⟨x.claimID, x.policyID, x.hospitalID, x.los, x.numDiagnoses,
      x.numDoctors, p.age, p.agent⟩ : M3))
    (fun x => (⟨x.claimID, x.policyID, x.hospitalID, x.los, x.numDiagnoses,
      x.numDoctors, none, none⟩ : M3))
    (policy_pre pl) hy
  have hxf : x.claimID = y.claimID ∧ x.age = none ∧ x.agent = none := by
    rcases hxcase with ⟨-, rfl⟩ | ⟨b, hb, hm, rfl⟩
    · exact ⟨rfl, rfl, rfl⟩
    · exfalso
      obtain ⟨p, hp, rfl⟩ := List.mem_map.mp hb
      have : y.policyID = some p.policyID := by simpa using hm
      exact hnomatch p hp (by rw [← hypol]; exact this)
  obtain ⟨row, hrow, hrowcase⟩ := exists_mem_leftMerge
    (fun (x : M3) (h : HospitalRow) => x.hospitalID == some h.hospitalID)
    (fun x h => (⟨x.claimID, x.policyID, x.hospitalID, x.los, x.numDiagnoses,
      x.numDoctors, x.age, x.agent, some h.location⟩ : MasterRow))
    (fun x => (⟨x.claimID, x.policyID, x.hospitalID, x.los, x.numDiagnoses,
      x.numDoctors, x.age, x.agent, none⟩ : MasterRow))
    hi hx
  have hrowf : row.claimID = x.claimID ∧ row.age = x.age ∧ row.agent = x.agent := by
    rcases hrowcase with ⟨-, rfl⟩ | ⟨b, -, -, rfl⟩ <;> exact ⟨rfl, rfl, rfl⟩
  refine ⟨row, hrow, hrowf.1.trans (hxf.1.trans hyck), ?_, ?_, ?_⟩
  · rw [hrowf.2.1]
    exact hxf.2.1
  · rw [hrowf.2.2]
    exact hxf.2.2
  · have hage : row.age = none := hrowf.2.1.trans hxf.2.1
    simp [flag_age_missing, hage]

/-- Witness for C6: claim 3 references policy 99, the policy table only
holds policy 10; the claim is still in `master`, null-aged and flagged. -/
theorem C6_missing_policy_left_join_witness :
    ∃ row ∈ master [⟨3, some 99, none, none, none⟩] [] []
        [⟨10, some 2023, some 1990, none⟩] [⟨20, 1⟩],
      row.claimID = (⟨3, some 99, none, none, none⟩ : ClaimRow).claimID ∧
      row.age = none ∧ row.agent = none ∧ flag_age_missing row = true :=
  C6_missing_policy_left_join [⟨3, some 99, none, none, none⟩] [] []
    [⟨10, some 2023, some 1990, none⟩] [⟨20, 1⟩]
    ⟨3, some 99, none, none, none⟩ (by decide) (by decide)

/-- C7: when `master` has (at most) one row per `Claim ID`, the per-doctor
per-rule sum equals the number of that doctor's claim assignments whose
claim is flagged by the rule — fan-out accumulation over assignments, not
deduplication: a doctor assigned to N flagged claims accumulates N. -/
theorem C7_doctor_fanout_count (cdo : List DocAsgRow) (ms : List MasterRow)
    (hnd : (ms.map (·.claimID)).Nodup) (d : Nat) (r : Rule) :
    doctor_flags_sum cdo ms d r =
      cdo.countP (fun a => a.doctorID == some d &&
        ms.any (fun x => a.claimID == some x.claimID && flagOf r x)) := by
  unfold doctor_flags_sum doctor_flags
  induction cdo with
  | nil => rfl
  | cons a cdo ih =>
    rw [leftMerge_cons, List.countP_append, List.countP_cons, ih]
    cases hfe : ms.filter (fun x => a.claimID == some x.claimID) with
    | nil =>
      have hany : ms.any (fun x => a.claimID == some x.claimID && flagOf r x) =
          false := by
        rw [List.any_eq_false]
        intro x hx hpx
        have hmx : (a.claimID == some x.claimID) = true :=
          (Bool.and_eq_true .. |>.mp hpx).1
        have : x ∈ ms.filter (fun x => a.claimID == some x.claimID) :=
          List.mem_filter.mpr ⟨hx, hmx⟩
        rw [hfe] at this
        cases this
      simp [hany]
    | cons m0 t =>
      have hle := filter_optkey_le_one ms (fun x => x.claimID) hnd a.claimID
      rw [hfe] at hle
      have ht : t = [] := by
        simp only [List.length_cons] at hle
        exact List.eq_nil_of_length_eq_zero (by omega)
      subst ht
      have hm0f : m0 ∈ ms.filter (fun x => a.claimID == some x.claimID) := by
        rw [hfe]
        exact List.mem_cons_self m0 []
      have hany : ms.any (fun x => a.claimID == some x.claimID && flagOf r x) =
          flagOf r m0 := by
        cases hfl : flagOf r m0 with
        | true =>
          rw [List.any_eq_true]
          exact ⟨m0, (List.mem_filter.mp hm0f).1,
            by rw [Bool.and_eq_true]; exact ⟨(List.mem_filter.mp hm0f).2, hfl⟩⟩
        | false =>
          rw [List.any_eq_false]
          intro x hx hpx
          rw [Bool.and_eq_true] at hpx
          have : x ∈ ms.filter (fun x => a.claimID == some x.claimID) :=
            List.mem_filter.mpr ⟨hx, hpx.1⟩
          rw [hfe] at this
          rw [List.mem_singleton.mp this] at hpx
          rw [hpx.2] at hfl
          cases hfl
      rw [hany]
      simp only [List.isEmpty_cons, List.map_cons, List.map_nil,
        Bool.false_eq_true, if_false]
      have hred : List.countP
          (fun x => x.1.doctorID == some d &&
            match x.2 with
            | some mrow => flagOf r mrow
            | none => false)
          [(a, some m0)] =
          if (a.doctorID == some d && flagOf r m0) = true then 1 else 0 := by
        rw [List.countP_cons, List.countP_nil, Nat.zero_add]
      rw [hred]
      exact Nat.add_comm _ _

/-- Witness for C7: doctor 7 is assigned to two flagged claims and
accumulates 2. -/
theorem C7_doctor_fanout_count_witness :
    doctor_flags_sum [⟨some 1, some 7⟩, ⟨some 2, some 7⟩, ⟨some 1, some 8⟩]
      [⟨1, none, none, some 1, some 4, none, none, none, none⟩,
        ⟨2, none, none, some 1, some 5, none, none, none, none⟩]
      7 Rule.many_diagnoses =
    ([⟨some 1, some 7⟩, ⟨some 2, some 7⟩, ⟨some 1, some 8⟩] :
        List DocAsgRow).countP (fun a => a.doctorID == some 7 &&
      ([⟨1, none, none, some 1, some 4, none, none, none, none⟩,
        ⟨2, none, none, some 1, some 5, none, none, none, none⟩] :
          List MasterRow).any
        (fun x => a.claimID == some x.claimID && flagOf Rule.many_diagnoses x)) :=
  C7_doctor_fanout_count _ _ (by decide) 7 Rule.many_diagnoses

/-- Summing an indicator of a fixed key over a duplicate-free key list
that contains the key gives exactly `c`. -/
theorem sum_map_indicator_of_nodup {κ : Type} [DecidableEq κ] (K : List κ)
    (hK : K.Nodup) (k₀ : κ) (hk₀ : k₀ ∈ K) (c : Nat) :
    (K.map (fun k => if k₀ = k then c else 0)).sum = c := by
  induction K with
  | nil => cases hk₀
  | cons k K ih =>
    simp only [List.map_cons, List.sum_cons]
    rw [List.nodup_cons] at hK
    rcases List.mem_cons.mp hk₀ with rfl | hmem
    · rw [if_pos rfl]
      have hz : (K.map (fun j => if k₀ = j then c else 0)).sum = 0 := by
        apply List.sum_eq_zero
        intro x hx
        obtain ⟨j, hj, rfl⟩ := List.mem_map.mp hx
        rw [if_neg]
        intro hkj
        exact hK.1 (hkj ▸ hj)
      rw [hz]
      exact Nat.add_zero c
    · have hne : k₀ ≠ k := by
        intro h
        exact hK.1 (h ▸ hmem)
      rw [if_neg hne, ih hK.2 hmem]
      exact Nat.zero_add c

/-- Partition of a flag count over the distinct non-null keys: the group
sums over a complete duplicate-free key list add up to the count of
flagged rows with a non-null key — rows with a null key are counted in no
group. -/
theorem sum_countP_groups {α κ : Type} [DecidableEq κ] (f : α → Option κ)
    (p : α → Bool) (K : List κ) (hK : K.Nodup) (ms : List α)
    (hcl : ∀ x ∈ ms, ∀ k, f x = some k → k ∈ K) :
    (K.map (fun k => ms.countP (fun x => f x == some k && p x))).sum =
      ms.countP (fun x => (f x).isSome && p x) := by
  induction ms with
  | nil => simp
  | cons x ms ih =>
    have hcl' : ∀ y ∈ ms, ∀ k, f y = some k → k ∈ K :=
      fun y hy => hcl y (List.mem_cons_of_mem _ hy)
    have hmap : (K.map (fun k => (x :: ms).countP (fun y => f y == some k && p y))) =
        K.map (fun k => ms.countP (fun y => f y == some k && p y) +
          if (f x == some k && p x) then 1 else 0) := by
      have hfun : (fun k => (x :: ms).countP (fun y => f y == some k && p y)) =
          (fun k => ms.countP (fun y => f y == some k && p y) +
            if (f x == some k && p x) then 1 else 0) :=
        funext (fun k => List.countP_cons _ _ _)
      rw [hfun]
    rw [hmap, List.sum_map_add, ih hcl', List.countP_cons]
    congr 1
    cases hfx : f x with
    | none =>
      simp
    | some k₀ =>
      cases hpx : p x with
      | false => simp
      | true =>
        have hk₀ : k₀ ∈ K := hcl x (List.mem_cons_self x ms) k₀ hfx
        simp only [Bool.and_true, Option.isSome_some, if_true]
        have hfun2 : (fun k => if ((some k₀ == some k) = true) then (1 : Nat) else 0) =
            (fun k : κ => if k₀ = k then 1 else 0) := by
          funext k
          by_cases h : k₀ = k <;> simp [h]
        rw [hfun2]
        exact sum_map_indicator_of_nodup K hK k₀ hk₀ 1

/-- C10: a master row with a null `Hospital ID` (respectively null
`Agent`) is dropped by the rollup's `groupby` and contributes to no
group: the per-hospital (per-agent) group sums add up to the count of
flagged rows with a non-null key only; yet any flagged row — null key or
not — still appears in the per-claim list of its rule. -/
theorem C10_null_keys_drop (ms : List MasterRow) (r : Rule) :
    ((hospital_keys ms).map (fun h => hospital_flags ms h r)).sum =
      ms.countP (fun x => x.hospitalID.isSome && flagOf r x) ∧
    ((agent_keys ms).map (fun g => agent_flags ms g r)).sum =
      ms.countP (fun x => x.agent.isSome && flagOf r x) ∧
    ∀ x ∈ ms, flagOf r x = true → x.claimID ∈ claims_per_rule r ms := by
  refine ⟨?_, ?_, ?_⟩
  · unfold hospital_keys hospital_flags
    apply sum_countP_groups (fun x : MasterRow => x.hospitalID) (flagOf r) _
      (List.nodup_dedup _) ms
    intro x hx k hk
    exact List.mem_dedup.mpr (List.mem_filterMap.mpr ⟨x, hx, hk⟩)
  · unfold agent_keys agent_flags
    apply sum_countP_groups (fun x : MasterRow => x.agent) (flagOf r) _
      (List.nodup_dedup _) ms
    intro x hx k hk
    exact List.mem_dedup.mpr (List.mem_filterMap.mpr ⟨x, hx, hk⟩)
  · intro x hx hfl
    unfold claims_per_rule
    exact List.mem_map_of_mem _ (List.mem_filter.mpr ⟨hx, hfl⟩)

/-- Witness for C10: one master row with null hospital, null agent and a
missing age; its flag is in no hospital group but the claim is in the
per-claim list. -/
theorem C10_null_keys_drop_witness :
    ((hospital_keys [⟨1, none, none, none, none, none, none, none, none⟩]).map
      (fun h => hospital_flags [⟨1, none, none, none, none, none, none, none, none⟩]
        h Rule.age_missing)).sum =
      ([⟨1, none, none, none, none, none, none, none, none⟩] :
        List MasterRow).countP
        (fun x => x.hospitalID.isSome && flagOf Rule.age_missing x) ∧
    (1 : Nat) ∈ claims_per_rule Rule.age_missing
      [⟨1, none, none, none, none, none, none, none, none⟩] :=
  ⟨(C10_null_keys_drop [⟨1, none, none, none, none, none, none, none, none⟩]
      Rule.age_missing).1,
    (C10_null_keys_drop [⟨1, none, none, none, none, none, none, none, none⟩]
      Rule.age_missing).2.2
      ⟨1, none, none, none, none, none, none, none, none⟩ (by decide) (by decide)⟩

/-!
## Character-level facts for the specialty normalization
-/

theorem toLowerN_toLowerN (c : Nat) : toLowerN (toLowerN c) = toLowerN c := by
  unfold toLowerN
  split_ifs <;> omega

theorem toUpperN_toUpperN (c : Nat) : toUpperN (toUpperN c) = toUpperN c := by
  unfold toUpperN
  split_ifs <;> omega

theorem isAlphaN_toLowerN (c : Nat) : isAlphaN (toLowerN c) = isAlphaN c := by
  unfold isAlphaN toLowerN
  split_ifs <;> first | rfl | (rw [decide_eq_decide]; omega)

theorem isAlphaN_toUpperN (c : Nat) : isAlphaN (toUpperN c) = isAlphaN c := by
  unfold isAlphaN toUpperN
  split_ifs <;> first | rfl | (rw [decide_eq_decide]; omega)

theorem isSpc_toLowerN (c : Nat) : isSpc (toLowerN c) = isSpc c := by
  unfold isSpc toLowerN
  split_ifs <;> first | rfl | (rw [decide_eq_decide]; omega)

theorem isSpc_toUpperN (c : Nat) : isSpc (toUpperN c) = isSpc c := by
  unfold isSpc toUpperN
  split_ifs <;> first | rfl | (rw [decide_eq_decide]; omega)

/-- The character transform of `titleAux` preserves letterhood. -/
theorem titleTr_alpha (b : Bool) (c : Nat) :
    isAlphaN (if isAlphaN c then (if b then toLowerN c else toUpperN c) else c) =
      isAlphaN c := by
  cases hA : isAlphaN c <;> cases b <;>
    simp [hA, isAlphaN_toLowerN, isAlphaN_toUpperN]

/-- The character transform of `titleAux` preserves whitespace-hood. -/
theorem titleTr_spc (b : Bool) (c : Nat) :
    isSpc (if isAlphaN c then (if b then toLowerN c else toUpperN c) else c) =
      isSpc c := by
  cases hA : isAlphaN c <;> cases b <;>
    simp [hA, isSpc_toLowerN, isSpc_toUpperN]

theorem titleAux_nil (b : Bool) : titleAux b [] = [] := rfl

theorem titleAux_cons (b : Bool) (c : Nat) (cs : List Nat) :
    titleAux b (c :: cs) =
      (if isAlphaN c then (if b then toLowerN c else toUpperN c) else c)
        :: titleAux (isAlphaN c) cs := rfl

/-- `str.title` is idempotent (for any starting flag). -/
theorem titleAux_titleAux (s : List Nat) :
    ∀ b, titleAux b (titleAux b s) = titleAux b s := by
  induction s with
  | nil => intro b; rfl
  | cons c cs ih =>
    intro b
    rw [titleAux_cons, titleAux_cons, titleTr_alpha b c, ih (isAlphaN c)]
    congr 1
    cases hA : isAlphaN c <;> cases b <;>
      simp [hA, toLowerN_toLowerN, toUpperN_toUpperN]

/-- `str.title` leaves the positions of whitespace characters unchanged. -/
theorem titleAux_map_isSpc (s : List Nat) :
    ∀ b, (titleAux b s).map isSpc = s.map isSpc := by
  induction s with
  | nil => intro b; rfl
  | cons c cs ih =>
    intro b
    rw [titleAux_cons, List.map_cons, List.map_cons, ih (isAlphaN c), titleTr_spc]

/-!
## `str.strip` fixed points
-/

/-- Dropping a prefix leaves a cons unchanged exactly when its head fails
the predicate. -/
theorem dropWhile_cons_eq_self {p : Nat → Bool} {a : Nat} {l : List Nat} :
    List.dropWhile p (a :: l) = a :: l ↔ p a = false := by
  constructor
  · intro h
    cases hpa : p a with
    | false => rfl
    | true =>
      exfalso
      rw [List.dropWhile_cons, if_pos (by rw [hpa])] at h
      have hlen : (List.dropWhile p l).length ≤ l.length :=
        (List.dropWhile_suffix p).length_le
      rw [h] at hlen
      simp only [List.length_cons] at hlen
      omega
  · intro h
    rw [List.dropWhile_cons, if_neg (by rw [h]; exact Bool.false_ne_true)]

/-- `dropWhile` is idempotent. -/
theorem dropWhile_dropWhile (p : Nat → Bool) (l : List Nat) :
    List.dropWhile p (List.dropWhile p l) = List.dropWhile p l := by
  induction l with
  | nil => rfl
  | cons a l ih =>
    rw [List.dropWhile_cons]
    by_cases hpa : p a = true
    · rw [if_pos hpa]
      exact ih
    · rw [if_neg hpa]
      exact dropWhile_cons_eq_self.mpr (Bool.eq_false_iff.mpr hpa)

/-- Fixedness under `dropWhile` only depends on the predicate values of
the characters. -/
theorem dropWhile_fixed_congr {p : Nat → Bool} {u v : List Nat}
    (hmap : u.map p = v.map p) (hu : List.dropWhile p u = u) :
    List.dropWhile p v = v := by
  cases u with
  | nil =>
    cases v with
    | nil => rfl
    | cons b v' => simp at hmap
  | cons a u' =>
    cases v with
    | nil => rfl
    | cons b v' =>
      simp only [List.map_cons, List.cons.injEq] at hmap
      exact dropWhile_cons_eq_self.mpr (hmap.1 ▸ dropWhile_cons_eq_self.mp hu)

/-- If a list is a fixed point of the left strip, so is the result of
right-stripping it. -/
theorem dropWhile_reverse_dropWhile_fixed {p : Nat → Bool} (u : List Nat)
    (hu : List.dropWhile p u = u) :
    List.dropWhile p ((List.dropWhile p u.reverse).reverse) =
      (List.dropWhile p u.reverse).reverse := by
  have hpre : (List.dropWhile p u.reverse).reverse <+: u := by
    have hsuf : List.dropWhile p u.reverse <:+ u.reverse := List.dropWhile_suffix p
    obtain ⟨t, ht⟩ := hsuf
    refine ⟨t.reverse, ?_⟩
    rw [← List.reverse_append, ht, List.reverse_reverse]
  cases hv : (List.dropWhile p u.reverse).reverse with
  | nil => rfl
  | cons a v' =>
    rw [hv] at hpre
    obtain ⟨t, ht⟩ := hpre
    have hpa : p a = false := by
      have hu' := hu
      rw [← ht, List.cons_append] at hu'
      exact dropWhile_cons_eq_self.mp hu'
    exact dropWhile_cons_eq_self.mpr hpa

/-- The two fixedness properties of a stripped string. -/
theorem stripStr_fixed (s : List Nat) :
    List.dropWhile isSpc (stripStr s) = stripStr s ∧
    List.dropWhile isSpc (stripStr s).reverse = (stripStr s).reverse := by
  constructor
  · exact dropWhile_reverse_dropWhile_fixed (s.dropWhile isSpc)
      (dropWhile_dropWhile isSpc s)
  · unfold stripStr
    rw [List.reverse_reverse]
    exact dropWhile_dropWhile isSpc (s.dropWhile isSpc).reverse

/-- A list fixed by the left and right strips is fixed by `stripStr`. -/
theorem stripStr_eq_self_of_fixed {u : List Nat}
    (h1 : List.dropWhile isSpc u = u)
    (h2 : List.dropWhile isSpc u.reverse = u.reverse) :
    stripStr u = u := by
  unfold stripStr
  rw [h1, h2, List.reverse_reverse]

/-- C5: specialty normalization (strip, title-case, synonym map) is
idempotent — applying it twice equals applying it once — and
`"pediatrician "` normalizes to `"Paediatrician"`. -/
theorem C5_normalize_Specialty_idempotent :
    (∀ s : List Nat,
      normalize_Specialty (normalize_Specialty s) = normalize_Specialty s) ∧
    normalize_Specialty (strCodes "pediatrician ") = strCodes "Paediatrician" := by
  constructor
  · intro s
    have ht1 : List.dropWhile isSpc (titleStr (stripStr s)) =
        titleStr (stripStr s) :=
      dropWhile_fixed_congr (titleAux_map_isSpc (stripStr s) false).symm
        (stripStr_fixed s).1
    have hmaprev : (stripStr s).reverse.map isSpc =
        (titleStr (stripStr s)).reverse.map isSpc := by
      rw [List.map_reverse, List.map_reverse]
      rw [show (titleStr (stripStr s)).map isSpc = (stripStr s).map isSpc from
        titleAux_map_isSpc (stripStr s) false]
    have ht2 : List.dropWhile isSpc (titleStr (stripStr s)).reverse =
        (titleStr (stripStr s)).reverse :=
      dropWhile_fixed_congr hmaprev (stripStr_fixed s).2
    have hst : stripStr (titleStr (stripStr s)) = titleStr (stripStr s) :=
      stripStr_eq_self_of_fixed ht1 ht2
    unfold normalize_Specialty
    by_cases hkey : titleStr (stripStr s) = strCodes "Paediatrician" ∨
        titleStr (stripStr s) = strCodes "Pediatrician" ∨
        titleStr (stripStr s) = strCodes "Paediatrics"
    · rw [show specialtySynonym (titleStr (stripStr s)) =
          strCodes "Paediatrician" from by
        unfold specialtySynonym; rw [if_pos hkey]]
      decide
    · rw [show specialtySynonym (titleStr (stripStr s)) =
          titleStr (stripStr s) from by
        unfold specialtySynonym; rw [if_neg hkey]]
      rw [hst]
      rw [show titleStr (titleStr (stripStr s)) = titleStr (stripStr s) from
        titleAux_titleAux (stripStr s) false]
      unfold specialtySynonym
      rw [if_neg hkey]
  · decide
